import Mathlib

/-!
Shallow embedding of the arbitrage detection engine of `src/main.py`
(functions `simulate_swap`, lines 93-102, and `find_arbitrage_opportunities`,
lines 105-135), together with theorems settling the claims about it.

Modelling choices:
* Python `Decimal` amounts are modelled as exact rationals (`ℚ`), following the
  spec's "exact decimal arithmetic" numeric semantics.
* Python `Decimal` division raises (`decimal.InvalidOperation` on `0/0`,
  `decimal.DivisionByZero` otherwise) when the divisor is zero, since the
  default decimal context traps both signals.  The embedding therefore returns
  `Option ℚ`: `none` models the raised exception, and the exception propagates
  through `find_arbitrage_opportunities`, which accordingly returns
  `Option (List Opportunity)`.
* The dict `pools_by_token` of line 107-110 is insertion-ordered; `poolsFor`
  reproduces, for one key, exactly the list the dict holds under that key.
-/

/-- Pool record, the engine's view of one liquidity pool: the dict shape built
by `fetch_all_pools` / `parse_lifinity_pool_data` restricted to the keys the
engine reads (`token_a`, `token_b`, `reserve_a`, `reserve_b`, `fee`) plus the
informational `dex` tag. -/
structure Pool where
  token_a : String
  token_b : String
  reserve_a : ℚ
  reserve_b : ℚ
  fee : ℚ
  dex : String
deriving DecidableEq, Repr

/-- Opportunity record: the dict appended at lines 130-134 of `src/main.py`.
Its keys are exactly `path`, `amount_out` and `profit`. -/
structure Opportunity where
  path : List String
  amount_out : ℚ
  profit : ℚ
deriving DecidableEq, Repr

/-- Key set of the opportunity dict literal at lines 130-134 of `src/main.py`. -/
def opportunityFields : List String := ["path", "amount_out", "profit"]

/-- Embedding of `simulate_swap` (lines 93-102).  The matched side determines
`(reserve_in, reserve_out)`; no side matching returns `Decimal('0')`.  The
final division has no zero-divisor guard in the source, so a zero divisor
raises in Python; here it yields `none`. -/
def simulate_swap (amount_in : ℚ) (pool : Pool) (input_token : String) : Option ℚ :=
  let fee := pool.fee
  let sides : Option (ℚ × ℚ) :=
    if input_token = pool.token_a then some (pool.reserve_a, pool.reserve_b)
    else if input_token = pool.token_b then some (pool.reserve_b, pool.reserve_a)
    else none
  match sides with
  | none => some 0
  | some (reserve_in, reserve_out) =>
    let amount_after_fee := amount_in * (1 - fee)
    if reserve_in + amount_after_fee = 0 then none
    else some (amount_after_fee * reserve_out / (reserve_in + amount_after_fee))

/-- The list held under key `t` by the dict `pools_by_token` built at lines
107-110: scanning `pools` in order, a pool is appended under its `token_a`,
then under its `token_b`. -/
def poolsFor (pools : List Pool) (t : String) : List Pool :=
  match pools with
  | [] => []
  | p :: rest =>
    ((if p.token_a = t then [p] else []) ++ (if p.token_b = t then [p] else []))
      ++ poolsFor rest t

/-- Derivation of the opposite-side token (`tok1 = p1['token_b'] if
p1['token_a'] == base_token else p1['token_a']`, lines 113 and 118). -/
def otherSide (p : Pool) (t : String) : String :=
  if p.token_a = t then p.token_b else p.token_a

/-- Sequencing of loop iterations each of which either raises (`none`) or
contributes a list of opportunities: the Python `for` loop appending into one
shared list, with an exception aborting the whole call. -/
def collectM {α β : Type} (f : α → Option (List β)) : List α → Option (List β)
  | [] => some []
  | x :: xs =>
    match f x with
    | none => none
    | some ys =>
      match collectM f xs with
      | none => none
      | some zs => some (ys ++ zs)

/-- Body of the innermost loop (lines 124-134) for one candidate `p3`: skip
unless the base token is one of its sides, simulate the third hop, and emit an
opportunity when `profit >= min_profit`. -/
def hop3 (base tok1 tok2 : String) (amount_in min_profit amt2 : ℚ) (p3 : Pool) :
    Option (List Opportunity) :=
  if base = p3.token_a ∨ base = p3.token_b then
    match simulate_swap amt2 p3 tok2 with
    | none => none
    | some amt3 =>
      if min_profit ≤ amt3 - amount_in then
        some [⟨[base, tok1, tok2, base], amt3, amt3 - amount_in⟩]
      else some []
  else some []

/-- Body of the middle loop (lines 117-134) for one candidate `p2`: derive
`tok2`, skip 2-hop cycles, simulate the second hop, skip non-positive output,
then run the inner loop over the pools indexed under `tok2`. -/
def hop2 (pools : List Pool) (base tok1 : String) (amount_in min_profit amt1 : ℚ)
    (p2 : Pool) : Option (List Opportunity) :=
  let tok2 := otherSide p2 tok1
  if tok2 = base then some []
  else
    match simulate_swap amt1 p2 tok1 with
    | none => none
    | some amt2 =>
      if amt2 ≤ 0 then some []
      else collectM (hop3 base tok1 tok2 amount_in min_profit amt2) (poolsFor pools tok2)

/-- Body of the outer loop (lines 112-134) for one candidate `p1`: derive
`tok1`, simulate the first hop, skip non-positive output, then run the middle
loop over the pools indexed under `tok1`. -/
def hop1 (pools : List Pool) (base : String) (amount_in min_profit : ℚ) (p1 : Pool) :
    Option (List Opportunity) :=
  let tok1 := otherSide p1 base
  match simulate_swap amount_in p1 base with
  | none => none
  | some amt1 =>
    if amt1 ≤ 0 then some []
    else collectM (hop2 pools base tok1 amount_in min_profit amt1) (poolsFor pools tok1)

/-- Embedding of `find_arbitrage_opportunities` (lines 105-135). -/
def find_arbitrage_opportunities (pools : List Pool) (base : String)
    (amount_in min_profit : ℚ) : Option (List Opportunity) :=
  collectM (hop1 pools base amount_in min_profit) (poolsFor pools base)

/-- Concrete pool base/A with reserves 1000 and 1000 and zero fee. -/
def poolBaseA : Pool := ⟨"SOL", "A", 1000, 1000, 0, "amm"⟩

/-- Concrete pool A/B with reserves 1000 and 1000 and zero fee. -/
def poolAB : Pool := ⟨"A", "B", 1000, 1000, 0, "amm"⟩

/-- Concrete pool B/base with reserve 1000 on the B side, 2000 on the base
side, and zero fee. -/
def poolBBase : Pool := ⟨"B", "SOL", 1000, 2000, 0, "amm"⟩

/-- The three-pool snapshot of the worked example in the spec. -/
def pools3 : List Pool := [poolBaseA, poolAB, poolBBase]

/-- The single opportunity the engine finds on `pools3`. -/
def opp3 : Opportunity := ⟨["SOL", "A", "B", "SOL"], 2000 / 103, 970 / 103⟩

/-- The snapshot `pools3` listed in reverse order. -/
def pools3r : List Pool := [poolBBase, poolAB, poolBaseA]

lemma poolBaseA_ta : poolBaseA.token_a = "SOL" := rfl

lemma poolBaseA_tb : poolBaseA.token_b = "A" := rfl

lemma poolAB_ta : poolAB.token_a = "A" := rfl

lemma poolAB_tb : poolAB.token_b = "B" := rfl

lemma poolBBase_ta : poolBBase.token_a = "B" := rfl

lemma poolBBase_tb : poolBBase.token_b = "SOL" := rfl

lemma eval_pf3_base : poolsFor pools3 "SOL" = [poolBaseA, poolBBase] := by
  simp only [pools3, poolsFor, poolBaseA_ta, poolBaseA_tb, poolAB_ta, poolAB_tb,
    poolBBase_ta, poolBBase_tb, String.reduceEq, reduceIte, List.append_nil,
    List.nil_append, List.singleton_append, List.cons_append]

lemma eval_pf3_A : poolsFor pools3 "A" = [poolBaseA, poolAB] := by
  simp only [pools3, poolsFor, poolBaseA_ta, poolBaseA_tb, poolAB_ta, poolAB_tb,
    poolBBase_ta, poolBBase_tb, String.reduceEq, reduceIte, List.append_nil,
    List.nil_append, List.singleton_append, List.cons_append]

lemma eval_pf3_B : poolsFor pools3 "B" = [poolAB, poolBBase] := by
  simp only [pools3, poolsFor, poolBaseA_ta, poolBaseA_tb, poolAB_ta, poolAB_tb,
    poolBBase_ta, poolBBase_tb, String.reduceEq, reduceIte, List.append_nil,
    List.nil_append, List.singleton_append, List.cons_append]

lemma eval_sim1 : simulate_swap 10 poolBaseA "SOL" = some (1000 / 101) := by
  simp only [simulate_swap, poolBaseA, String.reduceEq]; norm_num

lemma eval_sim2 : simulate_swap (1000 / 101) poolAB "A" = some (500 / 51) := by
  simp only [simulate_swap, poolAB, String.reduceEq]; norm_num

lemma eval_sim3 : simulate_swap (500 / 51) poolBBase "B" = some (2000 / 103) := by
  simp only [simulate_swap, poolBBase, String.reduceEq]; norm_num

lemma eval_sim1r : simulate_swap 10 poolBBase "SOL" = some (1000 / 201) := by
  simp only [simulate_swap, poolBBase, String.reduceEq]; norm_num

lemma eval_sim2r : simulate_swap (1000 / 201) poolAB "B" = some (500 / 101) := by
  simp only [simulate_swap, poolAB, String.reduceEq]; norm_num

lemma eval_sim3r : simulate_swap (500 / 101) poolBaseA "A" = some (1000 / 203) := by
  simp only [simulate_swap, poolBaseA, String.reduceEq]; norm_num

lemma eval_h3_AB : hop3 "SOL" "A" "B" 10 0 (500 / 51) poolAB = some [] := by
  simp only [hop3, poolAB_ta, poolAB_tb, String.reduceEq, or_self, reduceIte]

lemma eval_h3_BBase : hop3 "SOL" "A" "B" 10 0 (500 / 51) poolBBase = some [opp3] := by
  simp only [hop3, eval_sim3, poolBBase_ta, poolBBase_tb, String.reduceEq, false_or,
    reduceIte, opp3]
  norm_num

lemma eval_h3r_BaseA : hop3 "SOL" "B" "A" 10 0 (500 / 101) poolBaseA = some [] := by
  simp only [hop3, eval_sim3r, poolBaseA_ta, poolBaseA_tb, String.reduceEq, true_or,
    reduceIte]
  norm_num

lemma eval_h3r_AB : hop3 "SOL" "B" "A" 10 0 (500 / 101) poolAB = some [] := by
  simp only [hop3, poolAB_ta, poolAB_tb, String.reduceEq, or_self, reduceIte]

lemma eval_h2_BaseA : hop2 pools3 "SOL" "A" 10 0 (1000 / 101) poolBaseA = some [] := by
  simp only [hop2, otherSide, poolBaseA_ta, poolBaseA_tb, String.reduceEq, reduceIte]

lemma eval_h2_AB : hop2 pools3 "SOL" "A" 10 0 (1000 / 101) poolAB = some [opp3] := by
  simp only [hop2, otherSide, poolAB_ta, poolAB_tb, String.reduceEq, reduceIte,
    eval_sim2, (by norm_num : ¬ (500 / 51 : ℚ) ≤ 0), if_false,
    eval_pf3_B, collectM, eval_h3_AB, eval_h3_BBase, List.nil_append, List.append_nil]

lemma eval_h2r_AB : hop2 pools3 "SOL" "B" 10 0 (1000 / 201) poolAB = some [] := by
  simp only [hop2, otherSide, poolAB_ta, poolAB_tb, String.reduceEq, reduceIte,
    eval_sim2r, (by norm_num : ¬ (500 / 101 : ℚ) ≤ 0), if_false,
    eval_pf3_A, collectM, eval_h3r_BaseA, eval_h3r_AB, List.nil_append, List.append_nil]

lemma eval_h2r_BBase : hop2 pools3 "SOL" "B" 10 0 (1000 / 201) poolBBase = some [] := by
  simp only [hop2, otherSide, poolBBase_ta, poolBBase_tb, String.reduceEq, reduceIte]

lemma eval_h1_BaseA : hop1 pools3 "SOL" 10 0 poolBaseA = some [opp3] := by
  simp only [hop1, otherSide, poolBaseA_ta, poolBaseA_tb, String.reduceEq, reduceIte,
    eval_sim1, (by norm_num : ¬ (1000 / 101 : ℚ) ≤ 0), if_false,
    eval_pf3_A, collectM, eval_h2_BaseA, eval_h2_AB, List.nil_append, List.append_nil]

lemma eval_h1_BBase : hop1 pools3 "SOL" 10 0 poolBBase = some [] := by
  simp only [hop1, otherSide, poolBBase_ta, poolBBase_tb, String.reduceEq, reduceIte,
    eval_sim1r, (by norm_num : ¬ (1000 / 201 : ℚ) ≤ 0), if_false,
    eval_pf3_B, collectM, eval_h2r_AB, eval_h2r_BBase, List.nil_append, List.append_nil]

/-- Shared evaluation of the engine on the worked three-pool snapshot. -/
lemma eval_find3 : find_arbitrage_opportunities pools3 "SOL" 10 0 = some [opp3] := by
  simp only [find_arbitrage_opportunities, eval_pf3_base, collectM, eval_h1_BaseA,
    eval_h1_BBase, List.nil_append, List.append_nil]

lemma eval_pfr_base : poolsFor pools3r "SOL" = [poolBBase, poolBaseA] := by
  simp only [pools3r, poolsFor, poolBaseA_ta, poolBaseA_tb, poolAB_ta, poolAB_tb,
    poolBBase_ta, poolBBase_tb, String.reduceEq, reduceIte, List.append_nil,
    List.nil_append, List.singleton_append, List.cons_append]

lemma eval_pfr_A : poolsFor pools3r "A" = [poolAB, poolBaseA] := by
  simp only [pools3r, poolsFor, poolBaseA_ta, poolBaseA_tb, poolAB_ta, poolAB_tb,
    poolBBase_ta, poolBBase_tb, String.reduceEq, reduceIte, List.append_nil,
    List.nil_append, List.singleton_append, List.cons_append]

lemma eval_pfr_B : poolsFor pools3r "B" = [poolBBase, poolAB] := by
  simp only [pools3r, poolsFor, poolBaseA_ta, poolBaseA_tb, poolAB_ta, poolAB_tb,
    poolBBase_ta, poolBBase_tb, String.reduceEq, reduceIte, List.append_nil,
    List.nil_append, List.singleton_append, List.cons_append]

lemma eval_h2_BaseA_r : hop2 pools3r "SOL" "A" 10 0 (1000 / 101) poolBaseA = some [] := by
  simp only [hop2, otherSide, poolBaseA_ta, poolBaseA_tb, String.reduceEq, reduceIte]

lemma eval_h2_AB_r : hop2 pools3r "SOL" "A" 10 0 (1000 / 101) poolAB = some [opp3] := by
  simp only [hop2, otherSide, poolAB_ta, poolAB_tb, String.reduceEq, reduceIte,
    eval_sim2, (by norm_num : ¬ (500 / 51 : ℚ) ≤ 0), if_false,
    eval_pfr_B, collectM, eval_h3_AB, eval_h3_BBase, List.nil_append, List.append_nil]

lemma eval_h2r_AB_r : hop2 pools3r "SOL" "B" 10 0 (1000 / 201) poolAB = some [] := by
  simp only [hop2, otherSide, poolAB_ta, poolAB_tb, String.reduceEq, reduceIte,
    eval_sim2r, (by norm_num : ¬ (500 / 101 : ℚ) ≤ 0), if_false,
    eval_pfr_A, collectM, eval_h3r_BaseA, eval_h3r_AB, List.nil_append, List.append_nil]

lemma eval_h2r_BBase_r : hop2 pools3r "SOL" "B" 10 0 (1000 / 201) poolBBase = some [] := by
  simp only [hop2, otherSide, poolBBase_ta, poolBBase_tb, String.reduceEq, reduceIte]

lemma eval_h1_BaseA_r : hop1 pools3r "SOL" 10 0 poolBaseA = some [opp3] := by
  simp only [hop1, otherSide, poolBaseA_ta, poolBaseA_tb, String.reduceEq, reduceIte,
    eval_sim1, (by norm_num : ¬ (1000 / 101 : ℚ) ≤ 0), if_false,
    eval_pfr_A, collectM, eval_h2_BaseA_r, eval_h2_AB_r, List.nil_append, List.append_nil]

lemma eval_h1_BBase_r : hop1 pools3r "SOL" 10 0 poolBBase = some [] := by
  simp only [hop1, otherSide, poolBBase_ta, poolBBase_tb, String.reduceEq, reduceIte,
    eval_sim1r, (by norm_num : ¬ (1000 / 201 : ℚ) ≤ 0), if_false,
    eval_pfr_B, collectM, eval_h2r_AB_r, eval_h2r_BBase_r, List.nil_append, List.append_nil]

/-- Shared evaluation of the engine on the reversed three-pool snapshot. -/
lemma eval_find3r : find_arbitrage_opportunities pools3r "SOL" 10 0 = some [opp3] := by
  simp only [find_arbitrage_opportunities, eval_pfr_base, collectM, eval_h1_BaseA_r,
    eval_h1_BBase_r, List.nil_append, List.append_nil]

lemma collectM_cons {α β : Type} (f : α → Option (List β)) (x : α) (xs : List α) :
    collectM f (x :: xs) =
      match f x with
      | none => none
      | some ys =>
        match collectM f xs with
        | none => none
        | some zs => some (ys ++ zs) := rfl

lemma poolsFor_cons (p : Pool) (l : List Pool) (t : String) :
    poolsFor (p :: l) t =
      ((if p.token_a = t then [p] else []) ++ (if p.token_b = t then [p] else []))
        ++ poolsFor l t := rfl

lemma collectM_mem {α β : Type} {f : α → Option (List β)} :
    ∀ {l : List α} {ys : List β} {b : β}, collectM f l = some ys → b ∈ ys →
      ∃ x ∈ l, ∃ zs, f x = some zs ∧ b ∈ zs := by
  intro l
  induction l with
  | nil =>
    intro ys b h hb
    simp only [collectM, Option.some.injEq] at h
    subst h
    simp at hb
  | cons x xs ih =>
    intro ys b h hb
    unfold collectM at h
    cases hfx : f x with
    | none => rw [hfx] at h; cases h
    | some y0 =>
      rw [hfx] at h
      cases hrec : collectM f xs with
      | none => rw [hrec] at h; cases h
      | some z0 =>
        rw [hrec] at h
        have hys : y0 ++ z0 = ys := by injection h
        subst hys
        rcases List.mem_append.mp hb with hy | hz
        · exact ⟨x, List.mem_cons_self x xs, y0, hfx, hy⟩
        · rcases ih hrec hz with ⟨x2, hx2, zs, hzs, hbz⟩
          exact ⟨x2, List.mem_cons_of_mem x hx2, zs, hzs, hbz⟩

lemma mem_poolsFor {l : List Pool} {t : String} {p : Pool} (h : p ∈ poolsFor l t) :
    p ∈ l ∧ (p.token_a = t ∨ p.token_b = t) := by
  induction l with
  | nil => simp [poolsFor] at h
  | cons q rest ih =>
    simp only [poolsFor, List.append_assoc, List.mem_append] at h
    rcases h with ha | hb | hr
    · have : p = q ∧ q.token_a = t := by
        by_cases hc : q.token_a = t <;> simp [hc] at ha
        exact ⟨ha, hc⟩
      exact ⟨this.1 ▸ List.mem_cons_self q rest, Or.inl (this.1 ▸ this.2)⟩
    · have : p = q ∧ q.token_b = t := by
        by_cases hc : q.token_b = t <;> simp [hc] at hb
        exact ⟨hb, hc⟩
      exact ⟨this.1 ▸ List.mem_cons_self q rest, Or.inr (this.1 ▸ this.2)⟩
    · exact ⟨List.mem_cons_of_mem q (ih hr).1, (ih hr).2⟩

lemma otherSide_mem (p : Pool) (t : String) :
    otherSide p t = p.token_a ∨ otherSide p t = p.token_b := by
  unfold otherSide
  by_cases hc : p.token_a = t <;> simp [hc]

lemma collectM_congr_mem {α β : Type} {f g : α → Option (List β)} :
    ∀ {l : List α}, (∀ x ∈ l, f x = g x) → collectM f l = collectM g l := by
  intro l
  induction l with
  | nil => intro _; rfl
  | cons x xs ih =>
    intro h
    unfold collectM
    rw [h x (List.mem_cons_self x xs), ih fun y hy => h y (List.mem_cons_of_mem x hy)]

lemma collectM_skip {α β : Type} {f : α → Option (List β)} {q : α} (hq : f q = some []) :
    ∀ (l₁ l₂ : List α), collectM f (l₁ ++ q :: l₂) = collectM f (l₁ ++ l₂) := by
  intro l₁
  induction l₁ with
  | nil =>
    intro l₂
    simp only [List.nil_append, collectM_cons, hq]
    cases h2 : collectM f l₂ <;> simp
  | cons x xs ih =>
    intro l₂
    simp only [List.cons_append, collectM_cons, ih]

lemma collectM_skip_mid {α β : Type} {f : α → Option (List β)} :
    ∀ (mid : List α), (∀ x ∈ mid, f x = some []) →
      ∀ (l₁ l₂ : List α), collectM f (l₁ ++ (mid ++ l₂)) = collectM f (l₁ ++ l₂) := by
  intro mid
  induction mid with
  | nil => intro _ l₁ l₂; rfl
  | cons m ms ih =>
    intro h l₁ l₂
    have h1 : collectM f (l₁ ++ m :: (ms ++ l₂)) = collectM f (l₁ ++ (ms ++ l₂)) :=
      collectM_skip (h m (List.mem_cons_self m ms)) l₁ (ms ++ l₂)
    simp only [List.cons_append] at h1 ⊢
    rw [h1, ih (fun x hx => h x (List.mem_cons_of_mem m hx)) l₁ l₂]

lemma poolsFor_append : ∀ (l₁ l₂ : List Pool) (t : String),
    poolsFor (l₁ ++ l₂) t = poolsFor l₁ t ++ poolsFor l₂ t := by
  intro l₁
  induction l₁ with
  | nil => intro l₂ t; rfl
  | cons p rest ih =>
    intro l₂ t
    simp only [List.cons_append, poolsFor_cons, ih, List.append_assoc]

lemma poolsFor_skip {q : Pool} {t : String} (ha : q.token_a ≠ t) (hb : q.token_b ≠ t)
    (l₁ l₂ : List Pool) : poolsFor (l₁ ++ q :: l₂) t = poolsFor (l₁ ++ l₂) t := by
  rw [poolsFor_append, poolsFor_append]
  have : poolsFor (q :: l₂) t = poolsFor l₂ t := by
    simp only [poolsFor, if_neg ha, if_neg hb, List.append_nil, List.nil_append]
  rw [this]

/-- Relation between two possibly-raising loop results: both raise, or both
succeed with lists that are permutations of each other. -/
def OptPerm {β : Type} : Option (List β) → Option (List β) → Prop
  | none, none => True
  | some l₁, some l₂ => List.Perm l₁ l₂
  | _, _ => False

lemma OptPerm.rfl {β : Type} : ∀ (o : Option (List β)), OptPerm o o
  | none => trivial
  | some l => List.Perm.refl l

lemma OptPerm.trans {β : Type} :
    ∀ {a b c : Option (List β)}, OptPerm a b → OptPerm b c → OptPerm a c
  | none, none, none, _, _ => trivial
  | some _, some _, some _, h1, h2 => List.Perm.trans h1 h2
  | none, some _, _, h1, _ => absurd h1 not_false
  | some _, none, _, h1, _ => absurd h1 not_false
  | none, none, some _, _, h2 => absurd h2 not_false
  | some _, some _, none, _, h2 => absurd h2 not_false

lemma collectM_optPerm_congr {α β : Type} {f g : α → Option (List β)}
    (hfg : ∀ x, OptPerm (f x) (g x)) : ∀ (l : List α), OptPerm (collectM f l) (collectM g l) := by
  intro l
  induction l with
  | nil => exact List.Perm.refl []
  | cons x xs ih =>
    have hx := hfg x
    rw [collectM_cons f, collectM_cons g]
    cases hf : f x with
    | none =>
      cases hg : g x with
      | none => trivial
      | some ys2 => rw [hf, hg] at hx; exact absurd hx not_false
    | some ys =>
      cases hg : g x with
      | none => rw [hf, hg] at hx; exact absurd hx not_false
      | some ys2 =>
        rw [hf, hg] at hx
        cases hc1 : collectM f xs with
        | none =>
          cases hc2 : collectM g xs with
          | none => trivial
          | some zs2 => rw [hc1, hc2] at ih; exact absurd ih not_false
        | some zs =>
          cases hc2 : collectM g xs with
          | none => rw [hc1, hc2] at ih; exact absurd ih not_false
          | some zs2 =>
            rw [hc1, hc2] at ih
            exact List.Perm.append hx ih

lemma collectM_perm {α β : Type} (f : α → Option (List β)) {l₁ l₂ : List α}
    (hp : List.Perm l₁ l₂) : OptPerm (collectM f l₁) (collectM f l₂) := by
  induction hp with
  | nil => exact List.Perm.refl []
  | cons x hp ih =>
    rw [collectM_cons f, collectM_cons f]
    cases hf : f x with
    | none => trivial
    | some ys =>
      cases hc1 : collectM f _ with
      | none =>
        cases hc2 : collectM f _ with
        | none => trivial
        | some zs2 => rw [hc1, hc2] at ih; exact absurd ih not_false
      | some zs =>
        cases hc2 : collectM f _ with
        | none => rw [hc1, hc2] at ih; exact absurd ih not_false
        | some zs2 =>
          rw [hc1, hc2] at ih
          exact List.Perm.append_left ys ih
  | swap x y l =>
    rw [collectM_cons f, collectM_cons f, collectM_cons f, collectM_cons f]
    cases hx : f x with
    | none =>
      cases hy : f y <;> trivial
    | some xs2 =>
      cases hy : f y with
      | none => trivial
      | some ys2 =>
        cases hc : collectM f l with
        | none => trivial
        | some zs => exact List.perm_append_comm_assoc ys2 xs2 zs
  | trans h1 h2 ih1 ih2 => exact OptPerm.trans ih1 ih2

lemma poolsFor_perm {l₁ l₂ : List Pool} (t : String) (hp : List.Perm l₁ l₂) :
    List.Perm (poolsFor l₁ t) (poolsFor l₂ t) := by
  induction hp with
  | nil => exact List.Perm.refl []
  | cons x hp ih =>
    rw [poolsFor_cons, poolsFor_cons]
    exact List.Perm.append_left _ ih
  | swap x y l =>
    rw [poolsFor_cons, poolsFor_cons, poolsFor_cons, poolsFor_cons]
    exact List.perm_append_comm_assoc _ _ _
  | trans h1 h2 ih1 ih2 => exact List.Perm.trans ih1 ih2

lemma hop2_optPerm {l₁ l₂ : List Pool} (base tok1 : String) (aIn mp amt1 : ℚ) (p2 : Pool)
    (hp : List.Perm l₁ l₂) :
    OptPerm (hop2 l₁ base tok1 aIn mp amt1 p2) (hop2 l₂ base tok1 aIn mp amt1 p2) := by
  unfold hop2
  by_cases htok : otherSide p2 tok1 = base
  · simp only [if_pos htok]
    exact List.Perm.refl []
  · simp only [if_neg htok]
    cases hs : simulate_swap amt1 p2 tok1 with
    | none => trivial
    | some amt2 =>
      by_cases hle : amt2 ≤ 0
      · simp only [if_pos hle]
        exact List.Perm.refl []
      · simp only [if_neg hle]
        exact collectM_perm _ (poolsFor_perm _ hp)

lemma hop1_optPerm {l₁ l₂ : List Pool} (base : String) (aIn mp : ℚ) (p1 : Pool)
    (hp : List.Perm l₁ l₂) :
    OptPerm (hop1 l₁ base aIn mp p1) (hop1 l₂ base aIn mp p1) := by
  unfold hop1
  cases hs : simulate_swap aIn p1 base with
  | none => trivial
  | some amt1 =>
    by_cases hle : amt1 ≤ 0
    · simp only [if_pos hle]
      exact List.Perm.refl []
    · simp only [if_neg hle]
      exact OptPerm.trans
        (collectM_perm _ (poolsFor_perm _ hp))
        (collectM_optPerm_congr (fun p2 => hop2_optPerm base _ aIn mp amt1 p2 hp) _)

lemma find_optPerm {l₁ l₂ : List Pool} (base : String) (aIn mp : ℚ)
    (hp : List.Perm l₁ l₂) :
    OptPerm (find_arbitrage_opportunities l₁ base aIn mp)
      (find_arbitrage_opportunities l₂ base aIn mp) := by
  unfold find_arbitrage_opportunities
  exact OptPerm.trans
    (collectM_perm _ (poolsFor_perm _ hp))
    (collectM_optPerm_congr (fun p1 => hop1_optPerm base aIn mp p1 hp) _)

/-- Characterisation of a returned opportunity: it arises from pools `p1`, `p2`
of the snapshot via the intermediate tokens derived by the loops, with the
profit condition checked at emission. -/
lemma find_mem_spec {pools : List Pool} {base : String} {aIn mp : ℚ}
    {opps : List Opportunity} {o : Opportunity}
    (h : find_arbitrage_opportunities pools base aIn mp = some opps) (ho : o ∈ opps) :
    ∃ p1 p2 amt3,
      p1 ∈ pools ∧ (p1.token_a = base ∨ p1.token_b = base) ∧
      p2 ∈ pools ∧ (p2.token_a = otherSide p1 base ∨ p2.token_b = otherSide p1 base) ∧
      otherSide p2 (otherSide p1 base) ≠ base ∧
      mp ≤ amt3 - aIn ∧
      o = ⟨[base, otherSide p1 base, otherSide p2 (otherSide p1 base), base],
            amt3, amt3 - aIn⟩ := by
  unfold find_arbitrage_opportunities at h
  obtain ⟨p1, hp1mem, ys1, h1, ho1⟩ := collectM_mem h ho
  obtain ⟨hp1pools, hp1side⟩ := mem_poolsFor hp1mem
  simp only [hop1] at h1
  cases hs1 : simulate_swap aIn p1 base with
  | none => rw [hs1] at h1; cases h1
  | some amt1 =>
    simp only [hs1] at h1
    by_cases hle1 : amt1 ≤ 0
    · rw [if_pos hle1] at h1
      have : ([] : List Opportunity) = ys1 := by injection h1
      rw [← this] at ho1
      simp at ho1
    · rw [if_neg hle1] at h1
      obtain ⟨p2, hp2mem, ys2, h2, ho2⟩ := collectM_mem h1 ho1
      obtain ⟨hp2pools, hp2side⟩ := mem_poolsFor hp2mem
      simp only [hop2] at h2
      by_cases htok2 : otherSide p2 (otherSide p1 base) = base
      · rw [if_pos htok2] at h2
        have : ([] : List Opportunity) = ys2 := by injection h2
        rw [← this] at ho2
        simp at ho2
      · rw [if_neg htok2] at h2
        cases hs2 : simulate_swap amt1 p2 (otherSide p1 base) with
        | none => rw [hs2] at h2; cases h2
        | some amt2 =>
          simp only [hs2] at h2
          by_cases hle2 : amt2 ≤ 0
          · rw [if_pos hle2] at h2
            have : ([] : List Opportunity) = ys2 := by injection h2
            rw [← this] at ho2
            simp at ho2
          · rw [if_neg hle2] at h2
            obtain ⟨p3, hp3mem, ys3, h3, ho3⟩ := collectM_mem h2 ho2
            simp only [hop3] at h3
            by_cases hbase3 : base = p3.token_a ∨ base = p3.token_b
            · rw [if_pos hbase3] at h3
              cases hs3 : simulate_swap amt2 p3 (otherSide p2 (otherSide p1 base)) with
              | none => rw [hs3] at h3; cases h3
              | some amt3 =>
                simp only [hs3] at h3
                by_cases hprof : mp ≤ amt3 - aIn
                · rw [if_pos hprof] at h3
                  have hys3 : [(⟨[base, otherSide p1 base,
                      otherSide p2 (otherSide p1 base), base], amt3,
                      amt3 - aIn⟩ : Opportunity)] = ys3 := by injection h3
                  rw [← hys3] at ho3
                  have := List.mem_singleton.mp ho3
                  exact ⟨p1, p2, amt3, hp1pools, hp1side, hp2pools, hp2side, htok2,
                    hprof, this⟩
                · rw [if_neg hprof] at h3
                  have : ([] : List Opportunity) = ys3 := by injection h3
                  rw [← this] at ho3
                  simp at ho3
            · rw [if_neg hbase3] at h3
              have : ([] : List Opportunity) = ys3 := by injection h3
              rw [← this] at ho3
              simp at ho3

lemma otherSide_ne {p : Pool} {t : String} (hinv : p.token_a ≠ p.token_b) :
    otherSide p t ≠ t := by
  unfold otherSide
  by_cases h : p.token_a = t
  · simp only [if_pos h]
    rw [← h]
    exact fun he => hinv he.symm
  · simp only [if_neg h]
    exact h

lemma simulate_swap_eq_a {p : Pool} {inp : String} (ha : inp = p.token_a) (aIn : ℚ) :
    simulate_swap aIn p inp =
      if p.reserve_a + aIn * (1 - p.fee) = 0 then none
      else some (aIn * (1 - p.fee) * p.reserve_b / (p.reserve_a + aIn * (1 - p.fee))) := by
  subst ha
  simp [simulate_swap]

lemma simulate_swap_eq_b {p : Pool} {inp : String} (hna : inp ≠ p.token_a)
    (hb : inp = p.token_b) (aIn : ℚ) :
    simulate_swap aIn p inp =
      if p.reserve_b + aIn * (1 - p.fee) = 0 then none
      else some (aIn * (1 - p.fee) * p.reserve_a / (p.reserve_b + aIn * (1 - p.fee))) := by
  subst hb
  simp [simulate_swap, hna]

/-- C1: the claim says that when the divisor `reserve_in + amount_after_fee` is
zero, `simulate` returns `0` instead of dividing by zero.  The code of
`simulate_swap` (src/main.py line 102) has no such guard: at `amount_in = 0`
against a pool whose matched input reserve is `0`, the Python `Decimal`
division `0/0` raises `decimal.InvalidOperation`, modelled here as `none`
rather than `some 0`. -/
theorem C1_zero_divisor_raises :
    simulate_swap 0 (⟨"A", "B", 0, 5, 0, "amm"⟩ : Pool) "A" = none := by
  norm_num [simulate_swap]

/-- C2 counterexample: the opportunity dict constructed at lines 130-134 of
`src/main.py` has no `amount_in` key, contradicting the claim that every
returned Opportunity carries an `amount_in` field. -/
theorem C2_no_amount_in_field : ¬ ("amount_in" ∈ opportunityFields) := by decide

/-- C2 (amended): returned opportunities carry only `path`, `amount_out` and
`profit`; the input amount is nevertheless recoverable, since every returned
Opportunity satisfies `amount_out - profit = amountIn`. -/
theorem C2_amount_in_recoverable (pools : List Pool) (base : String) (aIn mp : ℚ)
    (opps : List Opportunity)
    (h : find_arbitrage_opportunities pools base aIn mp = some opps) :
    ∀ o ∈ opps, o.amount_out - o.profit = aIn := by
  intro o ho
  obtain ⟨p1, p2, amt3, _, _, _, _, _, _, rfl⟩ := find_mem_spec h ho
  ring

theorem C2_witness : opp3.amount_out - opp3.profit = 10 :=
  C2_amount_in_recoverable pools3 "SOL" 10 0 [opp3] eval_find3 opp3
    (List.mem_singleton.mpr rfl)

/-- C3 counterexample: at `amount_in = 0` against a pool whose matched reserve
is `0`, the divisor of the constant-product formula is zero; the code raises
(`none`) instead of returning the formula value, so the unconditional claim
fails there. -/
theorem C3_formula_fails_at_zero_divisor :
    simulate_swap 0 (⟨"A", "B", 0, 5, 0, "amm"⟩ : Pool) "A" ≠
      some ((0 * (1 - 0) * 5) / (0 + 0 * (1 - 0)) : ℚ) := by
  norm_num [simulate_swap]
  simp

/-- C3 (amended): for `amount_in ≥ 0` and an input asset matching a side of the
pool, provided the divisor `reserve_in + amount_in * (1 - fee_rate)` is
nonzero, `simulate` returns exactly
`(amount_in * (1 - fee_rate) * reserve_out) / (reserve_in + amount_in * (1 - fee_rate))`
in exact arithmetic, with `reserve_in`/`reserve_out` matched to the side. -/
theorem C3_constant_product_formula (p : Pool) (aIn : ℚ) (inp : String)
    (_h0 : 0 ≤ aIn) :
    (inp = p.token_a → p.reserve_a + aIn * (1 - p.fee) ≠ 0 →
      simulate_swap aIn p inp =
        some (aIn * (1 - p.fee) * p.reserve_b / (p.reserve_a + aIn * (1 - p.fee)))) ∧
    (inp ≠ p.token_a → inp = p.token_b → p.reserve_b + aIn * (1 - p.fee) ≠ 0 →
      simulate_swap aIn p inp =
        some (aIn * (1 - p.fee) * p.reserve_a / (p.reserve_b + aIn * (1 - p.fee)))) := by
  constructor
  · intro ha hden
    rw [simulate_swap_eq_a ha, if_neg hden]
  · intro hna hb hden
    rw [simulate_swap_eq_b hna hb, if_neg hden]

theorem C3_witness :
    simulate_swap 2 poolBaseA "SOL" =
      some (2 * (1 - poolBaseA.fee) * poolBaseA.reserve_b /
        (poolBaseA.reserve_a + 2 * (1 - poolBaseA.fee))) :=
  (C3_constant_product_formula poolBaseA 2 "SOL" (by norm_num)).1 rfl (by norm_num [poolBaseA])

/-- C4: on the three-pool snapshot base/A (1000,1000, fee 0), A/B (1000,1000,
fee 0), B/base (1000 B-side, 2000 base-side, fee 0), with `amountIn = 10` and
`minProfit = 0`, the engine returns exactly one Opportunity, with path
`[base, A, B, base]` and `amount_out` equal to the constant-product formula
chained three times. -/
theorem C4_worked_example :
    find_arbitrage_opportunities pools3 "SOL" 10 0 =
      some [⟨["SOL", "A", "B", "SOL"], 2000 / 103, 970 / 103⟩] ∧
    (let a1 : ℚ := 10 * 1000 / (1000 + 10)
     let a2 : ℚ := a1 * 1000 / (1000 + a1)
     a2 * 2000 / (1000 + a2)) = (2000 / 103 : ℚ) :=
  ⟨eval_find3, by norm_num⟩

/-- C5: every Opportunity returned by the engine has
`profit = amount_out - amountIn` and `profit ≥ minProfit` — these are exactly
the emission conditions at lines 128-134 of `src/main.py`. -/
theorem C5_profit_invariant (pools : List Pool) (base : String) (aIn mp : ℚ)
    (opps : List Opportunity)
    (h : find_arbitrage_opportunities pools base aIn mp = some opps) :
    ∀ o ∈ opps, o.profit = o.amount_out - aIn ∧ mp ≤ o.profit := by
  intro o ho
  obtain ⟨p1, p2, amt3, _, _, _, _, _, hprof, rfl⟩ := find_mem_spec h ho
  exact ⟨rfl, hprof⟩

theorem C5_witness : opp3.profit = opp3.amount_out - 10 ∧ (0 : ℚ) ≤ opp3.profit :=
  C5_profit_invariant pools3 "SOL" 10 0 [opp3] eval_find3 opp3
    (List.mem_singleton.mpr rfl)

/-- C9: when the input asset matches neither side of the pool, `simulate`
returns exactly `0` (lines 99-100 of `src/main.py`). -/
theorem C9_no_side_matches (p : Pool) (aIn : ℚ) (inp : String)
    (ha : inp ≠ p.token_a) (hb : inp ≠ p.token_b) :
    simulate_swap aIn p inp = some 0 := by
  simp [simulate_swap, ha, hb]

theorem C9_witness : simulate_swap 5 poolAB "SOL" = some 0 :=
  C9_no_side_matches poolAB 5 "SOL" (by decide) (by decide)

/-- C10: under the pool invariant `asset_a ≠ asset_b`, every returned
Opportunity has a path of exactly four entries `[base, t1, t2, base]` with
`t1 ≠ base`, `t2 ≠ base` and `t1 ≠ t2`. -/
theorem C10_path_shape (pools : List Pool) (base : String) (aIn mp : ℚ)
    (opps : List Opportunity)
    (hinv : ∀ p ∈ pools, p.token_a ≠ p.token_b)
    (h : find_arbitrage_opportunities pools base aIn mp = some opps) :
    ∀ o ∈ opps, ∃ t1 t2, o.path = [base, t1, t2, base] ∧
      t1 ≠ base ∧ t2 ≠ base ∧ t1 ≠ t2 := by
  intro o ho
  obtain ⟨p1, p2, amt3, hp1, hp1s, hp2, hp2s, htok2, hprof, rfl⟩ := find_mem_spec h ho
  exact ⟨otherSide p1 base, otherSide p2 (otherSide p1 base), rfl,
    otherSide_ne (hinv p1 hp1), htok2, (otherSide_ne (hinv p2 hp2)).symm⟩

theorem C10_witness : ∃ t1 t2, opp3.path = ["SOL", t1, t2, "SOL"] ∧
    t1 ≠ "SOL" ∧ t2 ≠ "SOL" ∧ t1 ≠ t2 :=
  C10_path_shape pools3 "SOL" 10 0 [opp3] (by decide) eval_find3 opp3
    (List.mem_singleton.mpr rfl)

/-- Concrete equal-reserve pool with a positive fee, for the C6 witness. -/
def poolFee : Pool := ⟨"A", "B", 4, 4, 1 / 100, "amm"⟩

lemma eval_simFee : simulate_swap 2 poolFee "A" = some (396 / 299) := by
  simp only [simulate_swap, poolFee, String.reduceEq]; norm_num

/-- C6 counterexample: with a positive fee and equal reserves, at `x = 0` the
simulator returns exactly `0 = x`, so the claimed strict inequality
`simulate(x) < x` fails at `x = 0`. -/
theorem C6_strict_fails_at_zero :
    simulate_swap 0 (⟨"A", "B", 5, 5, 1 / 100, "amm"⟩ : Pool) "A" = some 0 ∧
      ¬ ((0 : ℚ) < 0) :=
  ⟨by norm_num [simulate_swap], by norm_num⟩

/-- C6 (amended): for a pool with equal matched reserves (and the invariant
bounds on reserves and fee), the simulator is monotonically non-decreasing in
the input when `fee_rate = 0`, and satisfies `simulate(x) < x` strictly for
every `x > 0` once `fee_rate > 0` (at `x = 0` it returns `0 = x`). -/
theorem C6_monotone_and_strict (p : Pool) (inp : String)
    (hside : inp = p.token_a ∨ (inp ≠ p.token_a ∧ inp = p.token_b))
    (hr : p.reserve_a = p.reserve_b) (hr0 : 0 ≤ p.reserve_a) (hf1 : p.fee < 1) :
    (p.fee = 0 → ∀ x1 x2 y1 y2, 0 ≤ x1 → x1 ≤ x2 →
      simulate_swap x1 p inp = some y1 → simulate_swap x2 p inp = some y2 →
        y1 ≤ y2) ∧
    (0 < p.fee → ∀ x y, 0 < x → simulate_swap x p inp = some y → y < x) := by
  have key : ∀ x : ℚ, simulate_swap x p inp =
      if p.reserve_a + x * (1 - p.fee) = 0 then none
      else some (x * (1 - p.fee) * p.reserve_a / (p.reserve_a + x * (1 - p.fee))) := by
    intro x
    rcases hside with ha | ⟨hna, hb⟩
    · rw [simulate_swap_eq_a ha, ← hr]
    · rw [simulate_swap_eq_b hna hb, ← hr]
  constructor
  · intro hf0 x1 x2 y1 y2 hx1 h12 hy1 hy2
    rw [key x1] at hy1
    rw [key x2] at hy2
    simp only [hf0, sub_zero, mul_one] at hy1 hy2
    by_cases hd1 : p.reserve_a + x1 = 0
    · rw [if_pos hd1] at hy1; cases hy1
    · rw [if_neg hd1] at hy1
      by_cases hd2 : p.reserve_a + x2 = 0
      · rw [if_pos hd2] at hy2; cases hy2
      · rw [if_neg hd2] at hy2
        injection hy1 with hy1e
        injection hy2 with hy2e
        subst hy1e
        subst hy2e
        have hp1 : 0 < p.reserve_a + x1 :=
          lt_of_le_of_ne (add_nonneg hr0 hx1) (Ne.symm hd1)
        have hp2 : 0 < p.reserve_a + x2 :=
          lt_of_le_of_ne (add_nonneg hr0 (hx1.trans h12)) (Ne.symm hd2)
        rw [div_le_div_iff₀ hp1 hp2]
        nlinarith [mul_nonneg (sub_nonneg.mpr h12) (mul_nonneg hr0 hr0)]
  · intro hfpos x y hx hy
    rw [key x] at hy
    have haaf : 0 < x * (1 - p.fee) := mul_pos hx (by linarith)
    have hd : 0 < p.reserve_a + x * (1 - p.fee) := add_pos_of_nonneg_of_pos hr0 haaf
    rw [if_neg (ne_of_gt hd)] at hy
    injection hy with hye
    subst hye
    rw [div_lt_iff₀ hd]
    nlinarith [mul_nonneg (mul_nonneg (le_of_lt hx) hr0) (le_of_lt hfpos),
      mul_pos (mul_pos hx hx) (show (0 : ℚ) < 1 - p.fee by linarith)]

theorem C6_witness : (396 / 299 : ℚ) < 2 :=
  (C6_monotone_and_strict poolFee "A" (Or.inl rfl) rfl
      (by norm_num [poolFee]) (by norm_num [poolFee])).2
    (by norm_num [poolFee]) 2 (396 / 299) (by norm_num) eval_simFee

/-- C7: permuting the input pool list leaves the multiset of
`(path, amount_out)` pairs of the returned opportunities unchanged; only the
reported order may differ. -/
theorem C7_permutation_invariance (pools1 pools2 : List Pool) (base : String)
    (aIn mp : ℚ) (hp : List.Perm pools1 pools2)
    (opps1 opps2 : List Opportunity)
    (h1 : find_arbitrage_opportunities pools1 base aIn mp = some opps1)
    (h2 : find_arbitrage_opportunities pools2 base aIn mp = some opps2) :
    (↑(opps1.map fun o => (o.path, o.amount_out)) : Multiset (List String × ℚ)) =
      ↑(opps2.map fun o => (o.path, o.amount_out)) := by
  have h := find_optPerm base aIn mp hp
  rw [h1, h2] at h
  exact Multiset.coe_eq_coe.mpr (List.Perm.map _ h)

theorem C7_witness :
    (↑([opp3].map fun o => (o.path, o.amount_out)) : Multiset (List String × ℚ)) =
      ↑([opp3].map fun o => (o.path, o.amount_out)) :=
  C7_permutation_invariance pools3 pools3r "SOL" 10 0
    (List.Perm.symm (List.reverse_perm pools3)) [opp3] [opp3] eval_find3 eval_find3r

/-- C8: a pool `q` whose two assets differ from the base asset and never occur
in any pool of the list together with the base asset contributes to no
Opportunity: removing it from the list leaves the engine result unchanged. -/
theorem C8_unrelated_pool_inert (l₁ l₂ : List Pool) (q : Pool) (base : String)
    (aIn mp : ℚ) (hqa : q.token_a ≠ base) (hqb : q.token_b ≠ base)
    (hocc : ∀ p ∈ l₁ ++ q :: l₂, (p.token_a = base ∨ p.token_b = base) →
      (q.token_a ≠ p.token_a ∧ q.token_a ≠ p.token_b) ∧
      (q.token_b ≠ p.token_a ∧ q.token_b ≠ p.token_b)) :
    find_arbitrage_opportunities (l₁ ++ q :: l₂) base aIn mp =
      find_arbitrage_opportunities (l₁ ++ l₂) base aIn mp := by
  unfold find_arbitrage_opportunities
  rw [poolsFor_skip hqa hqb l₁ l₂]
  apply collectM_congr_mem
  intro p1 hp1
  obtain ⟨hp1mem, hp1side⟩ := mem_poolsFor hp1
  have hp1memP : p1 ∈ l₁ ++ q :: l₂ := by
    rcases List.mem_append.mp hp1mem with h | h
    · exact List.mem_append.mpr (Or.inl h)
    · exact List.mem_append.mpr (Or.inr (List.mem_cons_of_mem q h))
  obtain ⟨⟨hqa1, hqa2⟩, ⟨hqb1, hqb2⟩⟩ := hocc p1 hp1memP hp1side
  have htok1a : q.token_a ≠ otherSide p1 base := by
    rcases otherSide_mem p1 base with h | h <;> rw [h] <;> assumption
  have htok1b : q.token_b ≠ otherSide p1 base := by
    rcases otherSide_mem p1 base with h | h <;> rw [h] <;> assumption
  simp only [hop1]
  rw [poolsFor_skip htok1a htok1b l₁ l₂]
  cases hs1 : simulate_swap aIn p1 base with
  | none => rfl
  | some amt1 =>
    by_cases hle1 : amt1 ≤ 0
    · simp only [if_pos hle1]
    · simp only [if_neg hle1]
      apply collectM_congr_mem
      intro p2 hp2
      simp only [hop2]
      by_cases ht2 : otherSide p2 (otherSide p1 base) = base
      · simp only [if_pos ht2]
      · simp only [if_neg ht2]
        cases hs2 : simulate_swap amt1 p2 (otherSide p1 base) with
        | none => rfl
        | some amt2 =>
          by_cases hle2 : amt2 ≤ 0
          · simp only [if_pos hle2]
          · simp only [if_neg hle2]
            have hdecomp : poolsFor (l₁ ++ q :: l₂) (otherSide p2 (otherSide p1 base)) =
                poolsFor l₁ (otherSide p2 (otherSide p1 base)) ++
                  (((if q.token_a = otherSide p2 (otherSide p1 base) then [q] else []) ++
                    (if q.token_b = otherSide p2 (otherSide p1 base) then [q] else [])) ++
                    poolsFor l₂ (otherSide p2 (otherSide p1 base))) := by
              rw [poolsFor_append, poolsFor_cons, List.append_assoc]
            rw [hdecomp, poolsFor_append]
            apply collectM_skip_mid
            intro x hx
            have hxq : x = q := by
              rcases List.mem_append.mp hx with h | h
              · by_cases hc : q.token_a = otherSide p2 (otherSide p1 base) <;>
                  simp [hc] at h
                exact h
              · by_cases hc : q.token_b = otherSide p2 (otherSide p1 base) <;>
                  simp [hc] at h
                exact h
            subst hxq
            simp only [hop3]
            rw [if_neg]
            rintro (h | h)
            · exact hqa h.symm
            · exact hqb h.symm

/-- Concrete pool on two fresh assets, unrelated to the base asset. -/
def qpool : Pool := ⟨"X", "Y", 3, 7, 0, "amm"⟩

theorem C8_witness :
    find_arbitrage_opportunities (pools3 ++ qpool :: []) "SOL" 10 0 =
      find_arbitrage_opportunities (pools3 ++ []) "SOL" 10 0 :=
  C8_unrelated_pool_inert pools3 [] qpool "SOL" 10 0 (by decide) (by decide) (by decide)
